import Mathlib

/- Shallow embedding of src/license_plate_parser.py (class LicensePlateParser).

   Python strings are modelled as List Char.  Python character classes are
   modelled with their ASCII meaning: r"\s" as ASCII whitespace, r"\d" as
   ASCII digits, "[A-Z]" as ASCII uppercase letters.  Machine floats used
   only for wall-clock times are modelled as rationals. -/

namespace LPP

/-- ASCII whitespace, the characters matched by Python's r"\s" on ASCII text. -/
def isWsChar (c : Char) : Bool :=
  c = ' ' || c = '\t' || c = '\n' || c = '\r' || c = '\x0b' || c = '\x0c'

/-- Python str.strip(): remove whitespace from both ends. -/
def stripList (l : List Char) : List Char :=
  ((l.dropWhile isWsChar).reverse.dropWhile isWsChar).reverse

/-- Helper for collapseWs: the flag records whether the previous character
    was whitespace (so that a run is replaced by a single space). -/
def collapseWsAux : Bool → List Char → List Char
  | _, [] => []
  | prevWs, c :: cs =>
    if isWsChar c then
      if prevWs then collapseWsAux true cs
      else ' ' :: collapseWsAux true cs
    else c :: collapseWsAux false cs

/-- Python re.sub(r"\s+", " ", s): collapse each whitespace run to one space. -/
def collapseWs (l : List Char) : List Char := collapseWsAux false l

/-- Split off the part of the list before the first occurrence of sep,
    together with the part after it; none if sep does not occur. -/
def breakOn (sep : Char) : List Char → Option (List Char × List Char)
  | [] => none
  | c :: cs =>
    if c = sep then some ([], cs)
    else (breakOn sep cs).map (fun p => (c :: p.1, p.2))

/-- Python s.split(sep, maxsplit) for a single-character separator:
    at most maxsplit splits, empty fields preserved; always non-empty. -/
def pySplit (sep : Char) : Nat → List Char → List (List Char)
  | 0, l => [l]
  | n + 1, l =>
    match breakOn sep l with
    | none => [l]
    | some (a, b) => a :: pySplit sep n b

/-- Helper for pySplitWs, accumulating the current word in reverse. -/
def splitWsGo (cur : List Char) : List Char → List (List Char)
  | [] => if cur = [] then [] else [cur.reverse]
  | c :: cs =>
    if isWsChar c then
      if cur = [] then splitWsGo [] cs else cur.reverse :: splitWsGo [] cs
    else splitWsGo (c :: cur) cs

/-- Python s.split() with no separator: split on whitespace runs,
    discarding empty fields; the empty string yields []. -/
def pySplitWs (l : List Char) : List (List Char) := splitWsGo [] l

/-- Python " ".join(parts). -/
def joinSp : List (List Char) → List Char
  | [] => []
  | [x] => x
  | x :: y :: ys => x ++ ' ' :: joinSp (y :: ys)

/-- Numeric value of a decimal digit character. -/
def charVal (c : Char) : Nat := c.toNat - 48

/-- Value of a run of decimal digit characters. -/
def runVal (l : List Char) : Nat := l.foldl (fun a c => 10 * a + charVal c) 0

/-- Two-digit zero-padded decimal rendering (for n < 100). -/
def pad2 (n : Nat) : List Char := [Nat.digitChar (n / 10), Nat.digitChar (n % 10)]

/-- Four-digit zero-padded decimal rendering (for n < 10000). -/
def pad4 (n : Nat) : List Char :=
  [Nat.digitChar (n / 1000), Nat.digitChar (n / 100 % 10),
   Nat.digitChar (n / 10 % 10), Nat.digitChar (n % 10)]

/-- A naive datetime value, as produced by Python datetime.strptime. -/
structure PDateTime where
  year : Nat
  month : Nat
  day : Nat
  hour : Nat
  minute : Nat
  second : Nat
deriving DecidableEq, Repr

/-- Gregorian leap year, as used by Python's datetime module. -/
def isLeap (y : Nat) : Bool := (y % 4 = 0 && y % 100 != 0) || y % 400 = 0

/-- Number of days in a month, as validated by Python's datetime constructor. -/
def daysInMonth (y m : Nat) : Nat :=
  if m = 2 then (if isLeap y then 29 else 28)
  else if m = 4 || m = 6 || m = 9 || m = 11 then 30
  else 31

/-- One numeric field of a strptime format.  The compiled strptime regexes
    (CPython TimeRE: %Y is exactly four digits, %m is 1[0-2]|0[1-9]|[1-9],
    %d is 3[0-1]|[1-2]d|0[1-9]|[1-9], %H is 2[0-3]|[0-1]d|d, %M and %S are
    [0-5]d|d) must consume the whole leading digit run: a leftover digit
    would face a non-digit literal next and no backtracking can save it.
    So a field accepts exactly a run of minLen..maxLen digits whose value
    lies in [lo, hi].  (%S also matches the strings 60 and 61, but the
    datetime constructor then raises ValueError, so the format fails either
    way and hi = 59 gives the same outcome.) -/
def numField (minLen maxLen lo hi : Nat) (l : List Char) : Option (Nat × List Char) :=
  let run := l.takeWhile Char.isDigit
  if minLen ≤ run.length ∧ run.length ≤ maxLen ∧ lo ≤ runVal run ∧ runVal run ≤ hi then
    some (runVal run, l.dropWhile Char.isDigit)
  else none

/-- The %d field: besides the digit alternatives covered by numField, the
    CPython %d regex has a final alternative matching a space followed by a
    nonzero digit (tried only when the input starts with a space, where all
    the digit alternatives fail). -/
def dayField (l : List Char) : Option (Nat × List Char) :=
  match l with
  | c0 :: c1 :: rest =>
    if c0 = ' ' then
      (if c1.isDigit ∧ 1 ≤ charVal c1 then some (charVal c1, rest) else none)
    else numField 1 2 1 31 l
  | _ => numField 1 2 1 31 l

/-- Match one literal character. -/
def litChar (c : Char) : List Char → Option (List Char)
  | [] => none
  | x :: xs => if x = c then some xs else none

/-- Whitespace in a strptime format matches one or more whitespace characters. -/
def wsPlus (l : List Char) : Option (List Char) :=
  match l.takeWhile isWsChar with
  | [] => none
  | _ :: _ => some (l.dropWhile isWsChar)

/-- The date part %d sep %m sep %Y.  Returns (year, month, day, rest). -/
def parseDMY (sep : Char) (l : List Char) : Option (Nat × Nat × Nat × List Char) :=
  match dayField l with
  | none => none
  | some (dd, r1) =>
    match litChar sep r1 with
    | none => none
    | some r2 =>
      match numField 1 2 1 12 r2 with
      | none => none
      | some (mo, r3) =>
        match litChar sep r3 with
        | none => none
        | some r4 =>
          match numField 4 4 0 9999 r4 with
          | none => none
          | some (y, r5) => some (y, mo, dd, r5)

/-- The date part %Y sep %m sep %d.  Returns (year, month, day, rest). -/
def parseYMD (sep : Char) (l : List Char) : Option (Nat × Nat × Nat × List Char) :=
  match numField 4 4 0 9999 l with
  | none => none
  | some (y, r1) =>
    match litChar sep r1 with
    | none => none
    | some r2 =>
      match numField 1 2 1 12 r2 with
      | none => none
      | some (mo, r3) =>
        match litChar sep r3 with
        | none => none
        | some r4 =>
          match dayField r4 with
          | none => none
          | some (dd, r5) => some (y, mo, dd, r5)

def parseDatePart (dayFirst : Bool) (sep : Char) (l : List Char) :
    Option (Nat × Nat × Nat × List Char) :=
  match dayFirst with
  | true => parseDMY sep l
  | false => parseYMD sep l

/-- The %H:%M:%S part of a format.  Returns (hour, minute, second, rest). -/
def parseTimePart (l : List Char) : Option (Nat × Nat × Nat × List Char) :=
  match numField 1 2 0 23 l with
  | none => none
  | some (h, r1) =>
    match litChar ':' r1 with
    | none => none
    | some r2 =>
      match numField 1 2 0 59 r2 with
      | none => none
      | some (mi, r3) =>
        match litChar ':' r3 with
        | none => none
        | some r4 =>
          match numField 1 2 0 59 r4 with
          | none => none
          | some (s, r5) => some (h, mi, s, r5)

/-- Validation done by the datetime constructor after the regex match:
    year at least 1 and the day within the month (else ValueError, which
    parse_datetime turns into trying the next format). -/
def validDT (y mo dd h mi s : Nat) : Option PDateTime :=
  if 1 ≤ y ∧ dd ≤ daysInMonth y mo then some ⟨y, mo, dd, h, mi, s⟩ else none

/-- One whole strptime format of the program: a date part and optionally a
    time part, anchored at both ends (strptime requires a full match).
    A date-only format leaves the time fields at 0, as strptime does. -/
def pf (dayFirst : Bool) (sep : Char) (hasTime : Bool) (l : List Char) :
    Option PDateTime :=
  match parseDatePart dayFirst sep l with
  | none => none
  | some (y, mo, dd, r) =>
    match hasTime with
    | true =>
      match wsPlus r with
      | none => none
      | some r1 =>
        match parseTimePart r1 with
        | none => none
        | some (h, mi, s, r2) =>
          if r2 = [] then validDT y mo dd h mi s else none
    | false =>
      if r = [] then validDT y mo dd 0 0 0 else none

/-- The fixed ordered format list of parse_datetime (lines 104-113):
    dayFirst flag, separator, and whether the format has a time part. -/
def fmtSpecs : List (Bool × Char × Bool) :=
  [(false, '-', true),   -- %Y-%m-%d %H:%M:%S
   (true, '.', true),    -- %d.%m.%Y %H:%M:%S
   (true, '-', true),    -- %d-%m-%Y %H:%M:%S
   (false, '-', false),  -- %Y-%m-%d
   (true, '.', false),   -- %d.%m.%Y
   (true, '-', false),   -- %d-%m-%Y
   (true, '/', true),    -- %d/%m/%Y %H:%M:%S
   (true, '/', false)]   -- %d/%m/%Y

def formatFns : List (List Char → Option PDateTime) :=
  fmtSpecs.map (fun s => pf s.1 s.2.1 s.2.2)

/-- The loop of parse_datetime: first format that matches wins. -/
def tryFormats : List (List Char → Option PDateTime) → List Char → Option PDateTime
  | [], _ => none
  | f :: fs, l =>
    match f l with
    | some d => some d
    | none => tryFormats fs l

/-- LicensePlateParser.parse_datetime (lines 100-122): strip the input, try
    the fixed ordered format list, return None when no format matches. -/
def parse_datetime (l : List Char) : Option PDateTime :=
  tryFormats formatFns (stripList l)

/-- ASCII uppercase letter, Python "[A-Z]". -/
def isUpperCh (c : Char) : Bool := 'A' ≤ c && c ≤ 'Z'

/-- The three ordered start-anchored patterns of extract_region_code
    (lines 81-90), decided over the maximal leading uppercase run (the regex
    quantifiers face disjoint character classes, so no backtracking can make
    a shorter prefix succeed where the maximal one fails):
    r"^([A-Z]{2,3})\s+\d" matches iff the run has length 2..3 and is
    followed by whitespace then a digit (a longer run blocks the \s);
    r"^([A-Z]{2,3})\d" likewise with an immediate digit;
    r"^([A-Z]{2,3})" matches iff the run has length at least 2, capturing
    at most 3 letters. -/
def regionPatterns (pc : List Char) : Option (List Char) :=
  let run := pc.takeWhile isUpperCh
  let rest := pc.dropWhile isUpperCh
  if 2 ≤ run.length ∧ run.length ≤ 3 ∧ rest.takeWhile isWsChar ≠ [] ∧
      ((rest.dropWhile isWsChar).headD ' ').isDigit then
    some run
  else if 2 ≤ run.length ∧ run.length ≤ 3 ∧ (rest.headD ' ').isDigit then
    some run
  else if 2 ≤ run.length then
    some (run.take 3)
  else none

/-- LicensePlateParser.extract_region_code (lines 76-98): plate_clean
    collapses whitespace after strip+upper, the ordered patterns are tried,
    then the last-resort branch takes the leading r"^[A-Z]+" run, returning
    its first 3 characters when it has at least 3 and its first 2 otherwise,
    and UNK when there are no leading letters. -/
def extract_region_code (plate : List Char) : List Char :=
  let pc := collapseWs ((stripList plate).map Char.toUpper)
  match regionPatterns pc with
  | some r => r
  | none =>
    let run := pc.takeWhile isUpperCh
    if 1 ≤ run.length then
      (if 3 ≤ run.length then run.take 3 else run.take 2)
    else
      "UNK".data

/-- Modelled from the spec's words (section 4.1, derive_region_code), for
    comparison with extract_region_code: same normalization and ordered
    start-anchored patterns, then the fallback described as "take the maximal
    leading run of letters; if its length is at least 3, return its first 3
    characters, else return the whole run (if any) or the sentinel UNK". -/
def derive_region_code_spec (plate : List Char) : List Char :=
  let pc := collapseWs ((stripList plate).map Char.toUpper)
  match regionPatterns pc with
  | some r => r
  | none =>
    let run := pc.takeWhile isUpperCh
    if run = [] then "UNK".data
    else if 3 ≤ run.length then run.take 3
    else run

/-- One extracted comment record, the dict built by the parsing strategies.
    The date field holds the value returned by parse_datetime; the strategies
    only append a record when that value is not None, so past extraction the
    field is always some. -/
structure Record where
  plate : List Char
  date : Option PDateTime
  author : List Char
  comment : List Char
deriving DecidableEq, Repr

/-- Body of the match loop of _parse_strategy_1 (lines 170-187): given the
    three captured groups, strip them, split the comment text on single
    spaces with maxsplit 3, take the first field as author and the joined
    remainder as comment (or the whole text when there was at most one
    field), and keep the record only when the date parses. -/
def buildRecord1 (plateRaw dateRaw commentRaw : List Char) : Option Record :=
  let plate := stripList plateRaw
  let date_str := stripList dateRaw
  let comment_text := stripList commentRaw
  let parts := pySplit ' ' 3 comment_text
  let author := match parts with
    | [] => "Anonymous".data
    | a :: _ => a
  let comment_clean := if 1 < parts.length then joinSp parts.tail else comment_text
  match parse_datetime date_str with
  | some pd =>
    some ⟨plate, some pd, author.take 255,
          if comment_clean ≠ [] then comment_clean.take 1000 else []⟩
  | none => none

/-- Body of the candidate loop of _parse_strategy_2 (lines 200-228): the
    plate group is stripped, the comment text is split on whitespace runs,
    author defaults to Anonymous and comment to empty. -/
def buildRecord2 (plateRaw dateRaw commentRaw : List Char) : Option Record :=
  let plate := stripList plateRaw
  let comment_text := stripList commentRaw
  let words := pySplitWs comment_text
  let author := match words with
    | [] => "Anonymous".data
    | w :: _ => w
  let comment_clean := if 1 < words.length then joinSp words.tail else []
  match parse_datetime dateRaw with
  | some pd => some ⟨plate, some pd, author.take 255, comment_clean.take 1000⟩
  | none => none

/-- Body of the element loop of _parse_strategy_3 (lines 250-266): like
    strategy 2 but the plate group is not stripped. -/
def buildRecord3 (plateRaw dateRaw commentRaw : List Char) : Option Record :=
  let comment_text := stripList commentRaw
  let words := pySplitWs comment_text
  let author := match words with
    | [] => "Anonymous".data
    | w :: _ => w
  let comment_clean := if 1 < words.length then joinSp words.tail else []
  match parse_datetime dateRaw with
  | some pd => some ⟨plateRaw, some pd, author.take 255, comment_clean.take 1000⟩
  | none => none

/-- Match exactly n decimal digits. -/
def takeDigits (n : Nat) (l : List Char) : Option (List Char × List Char) :=
  if (l.take n).length = n ∧ (l.take n).all Char.isDigit then
    some (l.take n, l.drop n)
  else none

/-- Anchored match of the timestamp pattern
    r"(\d{4}-\d{2}-\d{2}\s+\d{2}:\d{2}:\d{2})" used by all three strategies.
    The counted digit groups are rigid, so the captured characters are
    exactly the consumed ones; a digit left after a counted group faces a
    non-digit literal and the position fails, which the exact-count plus
    literal checks reproduce. -/
def matchISO (l : List Char) : Option (List Char × List Char) := do
  let (d4, r1) ← takeDigits 4 l
  let r2 ← litChar '-' r1
  let (m2, r3) ← takeDigits 2 r2
  let r4 ← litChar '-' r3
  let (d2, r5) ← takeDigits 2 r4
  let ws := r5.takeWhile isWsChar
  match ws with
  | [] => none
  | _ :: _ => do
    let r6 := r5.dropWhile isWsChar
    let (h2, r7) ← takeDigits 2 r6
    let r8 ← litChar ':' r7
    let (mi2, r9) ← takeDigits 2 r8
    let r10 ← litChar ':' r9
    let (s2, r11) ← takeDigits 2 r10
    some (d4 ++ '-' :: m2 ++ '-' :: d2 ++ ws ++ h2 ++ ':' :: mi2 ++ ':' :: s2, r11)

/-- Anchored match of the tail pattern r"\s*([^\n]+?)(?=\n|\$)" of strategy 1.
    The greedy \s* is tried longest first; when a non-whitespace character
    follows the maximal whitespace run, the lazy group extends from it up to
    the next newline or the end (each shorter extent fails the lookahead).
    When the whole remainder is whitespace, the engine backtracks into \s*
    and the group becomes the last non-newline character, followed only by
    newlines; if there is none, the match fails. -/
def matchTail (l : List Char) : Option (List Char × List Char) :=
  match l.dropWhile isWsChar with
  | c :: cs => some ((c :: cs).takeWhile (fun x => x ≠ '\n'),
                     (c :: cs).dropWhile (fun x => x ≠ '\n'))
  | [] =>
    match l.reverse.dropWhile (fun x => x = '\n') with
    | c :: _ => some ([c], (l.reverse.takeWhile (fun x => x = '\n')).reverse)
    | [] => none

/-- Anchored match of the strategy-1 pattern
    r"([A-Z]{1,4}\s*\d{1,5}[A-Z]*)\s*[·•]\s*(iso)\s*([^\n]+?)(?=\n|\$)"
    at the head of l, returning the three groups and the remainder after the
    match.  The quantified classes (letters, whitespace, digits) are
    pairwise disjoint and each is followed by a class it cannot overlap, so
    every quantifier must consume its maximal run: a leading letter run
    longer than 4 or a digit run longer than 5 makes every backtracking
    branch fail. -/
def matchS1 (l : List Char) : Option (List Char × List Char × List Char × List Char) :=
  let letters := l.takeWhile isUpperCh
  let r1 := l.dropWhile isUpperCh
  if letters.length < 1 ∨ 4 < letters.length then none
  else
    let ws1 := r1.takeWhile isWsChar
    let r2 := r1.dropWhile isWsChar
    let digits := r2.takeWhile Char.isDigit
    let r3 := r2.dropWhile Char.isDigit
    if digits.length < 1 ∨ 5 < digits.length then none
    else
      let tl := r3.takeWhile isUpperCh
      let r4 := r3.dropWhile isUpperCh
      let g1 := letters ++ ws1 ++ digits ++ tl
      match r4.dropWhile isWsChar with
      | c :: r6 =>
        if c = '·' ∨ c = '•' then
          match matchISO (r6.dropWhile isWsChar) with
          | some (g2, r8) =>
            match matchTail r8 with
            | some (g3, rest) => some (g1, g2, g3, rest)
            | none => none
          | none => none
        else none
      | [] => none

/-- re.finditer for strategy 1: try a match at each position, continue after
    the end of a match (matches never overlap).  The fuel is an upper bound
    on the number of scan steps; every step strictly shortens the text. -/
def scan1 (fuel : Nat) (l : List Char) : List (List Char × List Char × List Char) :=
  match fuel with
  | 0 => []
  | fuel + 1 =>
    match l with
    | [] => []
    | _ :: tail =>
      match matchS1 l with
      | some (g1, g2, g3, rest) => (g1, g2, g3) :: scan1 fuel rest
      | none => scan1 fuel tail

/-- LicensePlateParser._parse_strategy_1 (lines 161-189). -/
def parse_strategy_1 (text : List Char) : List Record :=
  (scan1 text.length text).filterMap (fun g => buildRecord1 g.1 g.2.1 g.2.2)

/-- Anchored match of the strategy-2/3 plate pattern
    r"([A-Z]{2,3}\s*\d{1,5}[A-Z]*)": a leading letter run of length 2 or 3
    (a longer run leaves a letter where a digit or whitespace is required,
    failing every branch), optional whitespace, up to five digits (a longer
    run simply ends the match after five), optional trailing letters.
    Returns the group and the remainder. -/
def matchPlate2 (l : List Char) : Option (List Char × List Char) :=
  let letters := l.takeWhile isUpperCh
  let r1 := l.dropWhile isUpperCh
  if letters.length < 2 ∨ 3 < letters.length then none
  else
    let ws1 := r1.takeWhile isWsChar
    let r2 := r1.dropWhile isWsChar
    let digits := (r2.takeWhile Char.isDigit).take 5
    if digits.length < 1 then none
    else
      let r3 := r2.drop digits.length
      let tl := r3.takeWhile isUpperCh
      let r4 := r3.dropWhile isUpperCh
      some (letters ++ ws1 ++ digits ++ tl, r4)

/-- re.search for the timestamp pattern inside a window, returning the
    captured characters and the end index of the match in the window. -/
def searchISO (fuel idx : Nat) (l : List Char) : Option (List Char × Nat) :=
  match fuel with
  | 0 => none
  | fuel + 1 =>
    match matchISO l with
    | some (g, _) => some (g, idx + g.length)
    | none =>
      match l with
      | [] => none
      | _ :: t => searchISO fuel (idx + 1) t

/-- re.finditer for strategy 2 (lines 196-214): for each plate match, search
    the next 200 characters for a timestamp; if found, the comment candidate
    runs from the end of the timestamp to the next newline or at most 500
    characters.  Scanning resumes after the plate group either way. -/
def scan2 (fuel : Nat) (l : List Char) : List (List Char × List Char × List Char) :=
  match fuel with
  | 0 => []
  | fuel + 1 =>
    match l with
    | [] => []
    | _ :: tail =>
      match matchPlate2 l with
      | some (g1, rest) =>
        match searchISO 201 0 (rest.take 200) with
        | some (g2, endIdx) =>
          let commentRaw := ((rest.drop endIdx).take 500).takeWhile (fun x => x ≠ '\n')
          (g1, g2, commentRaw) :: scan2 fuel rest
        | none => scan2 fuel rest
      | none => scan2 fuel tail

/-- LicensePlateParser._parse_strategy_2 (lines 191-230). -/
def parse_strategy_2 (text : List Char) : List Record :=
  (scan2 text.length text).filterMap (fun g => buildRecord2 g.1 g.2.1 g.2.2)

/-- re.search for the plate pattern: first match anywhere in the text. -/
def searchPlate (fuel : Nat) (l : List Char) : Option (List Char) :=
  match fuel with
  | 0 => none
  | fuel + 1 =>
    match matchPlate2 l with
    | some (g1, _) => some g1
    | none =>
      match l with
      | [] => none
      | _ :: t => searchPlate fuel t

/-- One element of the strategy-3 loop (lines 242-266): strip the element
    text, search it for a plate and for a timestamp, and when both are found
    build the record from the text after the timestamp. -/
def frag3 (frag : List Char) : Option Record :=
  match searchPlate ((stripList frag).length + 1) (stripList frag),
        searchISO ((stripList frag).length + 1) 0 (stripList frag) with
  | some g1, some (g2, endIdx) => buildRecord3 g1 g2 ((stripList frag).drop endIdx)
  | _, _ => none

/-- LicensePlateParser._parse_strategy_3 (lines 232-268).  The BeautifulSoup
    call soup.find_all(..., string=re.compile(...)) that selects candidate
    elements is an external HTML library; the embedding takes the list of
    element texts as a parameter.  The [:50] cap, the per-element plate and
    timestamp searches and the record construction are modelled from the
    code. -/
def parse_strategy_3 (fragments : List (List Char)) : List Record :=
  (fragments.take 50).filterMap frag3

/-- The strategy loop of extract_comments_from_page (lines 148-158): the
    comments variable starts empty; a strategy that raises leaves it at its
    previous value (error case), a strategy that returns keeps its result
    and the loop breaks on the first non-empty one. -/
def strategyLoop : List (Except Unit (List Record)) → List Record → List Record
  | [], acc => acc
  | Except.error _ :: rs, acc => strategyLoop rs acc
  | Except.ok cs :: rs, _ => if cs.isEmpty then strategyLoop rs cs else cs

/-- LicensePlateParser.extract_comments_from_page (lines 124-159).  The
    BeautifulSoup get_text() conversion is an external HTML library; the
    embedding takes the page's text content and the strategy-3 element
    texts as parameters.  The embedded strategies are total functions, so
    each entry is Except.ok. -/
def extract_comments_from_page (text : List Char) (fragments : List (List Char)) :
    List Record :=
  strategyLoop
    [Except.ok (parse_strategy_1 text),
     Except.ok (parse_strategy_2 text),
     Except.ok (parse_strategy_3 fragments)] []

/-- Behaviour of the external PostgreSQL collaborator for one save call:
    whether connect_db succeeds, and which records the INSERT succeeds for. -/
structure DbBehavior where
  connOk : Bool
  recOk : Record → Bool

/-- Observable outcome of save_comments_to_db: the returned count, how many
    times the per-record except branch incremented self.error_count, whether
    a database connection was attempted, whether the call raised, and the
    (license_plate, region_code) pairs actually inserted. -/
structure SaveResult where
  saved : Nat
  errIncr : Nat
  connected : Bool
  raised : Bool
  rows : List (List Char × List Char)
deriving DecidableEq

/-- LicensePlateParser.save_comments_to_db (lines 270-308): an empty batch
    returns 0 before touching the database; a failed connection raises out
    of the call; otherwise each record is inserted with its region code
    derived from the plate at persistence time, a per-record failure
    incrementing self.error_count without stopping the batch. -/
def save_comments_to_db (db : DbBehavior) (comments : List Record) : SaveResult :=
  if comments.isEmpty then ⟨0, 0, false, false, []⟩
  else if db.connOk then
    ⟨(comments.filter db.recOk).length,
     (comments.filter (fun r => ! db.recOk r)).length,
     true, false,
     (comments.filter db.recOk).map (fun r => (r.plate, extract_region_code r.plate))⟩
  else ⟨0, 0, true, true, []⟩

/-- Per-run environment: what fetch_page returns for each page (None models
    a requests.RequestException, which fetch_page logs, counts and turns
    into None), the strategy-3 element texts of each page, and the database
    behaviour for each page's save call. -/
structure PageEnv where
  fetch : Nat → Option (List Char)
  fragments : Nat → List (List Char)
  db : Nat → DbBehavior

/-- The mutable counters of the parser read by the summary (lines 59-63). -/
structure CrawlState where
  processed_pages : Nat
  total_records : Nat
  error_count : Nat
deriving DecidableEq, Repr

/-- One iteration of the page loop of runParser (lines 369-394).  A failed
    fetch has already incremented error_count inside fetch_page and the
    loop continues without counting the page as processed; a save that
    raises is caught by the generic except branch which increments
    error_count and continues; otherwise the page is counted and the saved
    count accumulated.  (print_progress and the zero-data warning only log;
    KeyboardInterrupt comes from the operator and is outside the model.) -/
def crawlPage (env : PageEnv) (s : CrawlState) (p : Nat) : CrawlState :=
  match env.fetch p with
  | none => { s with error_count := s.error_count + 1 }
  | some text =>
    let comments := extract_comments_from_page text (env.fragments p)
    let sr := save_comments_to_db (env.db p) comments
    if sr.raised then
      { s with error_count := s.error_count + sr.errIncr + 1 }
    else
      { processed_pages := s.processed_pages + 1,
        total_records := s.total_records + sr.saved,
        error_count := s.error_count + sr.errIncr }

/-- The page loop of runParser over start_page..end_page inclusive,
    starting from the freshly initialised counters. -/
def runParser (env : PageEnv) (startPage endPage : Nat) : CrawlState :=
  (List.range' startPage (endPage + 1 - startPage)).foldl (crawlPage env) ⟨0, 0, 0⟩

/-- The totals reported by the summary block (lines 396-402). -/
structure Summary where
  processed : Nat
  records : Nat
  errors : Nat
  duration : ℚ
  avgPerPage : ℚ

/-- The summary block of runParser (lines 396-402).  Line 402 computes
    elapsed_time / self.processed_pages with no guard: when no page was
    processed the division raises ZeroDivisionError, modelled as none. -/
def run_summary (env : PageEnv) (startPage endPage : Nat) (elapsed : ℚ) :
    Option Summary :=
  let s := runParser env startPage endPage
  if s.processed_pages = 0 then none
  else some ⟨s.processed_pages, s.total_records, s.error_count, elapsed,
             elapsed / (s.processed_pages : ℚ)⟩

/-- LicensePlateParser.calculate_eta (lines 332-343), before the int()
    truncation and timedelta rendering of the value.  Python's falsy test
    "not self.start_time" also treats a start time of exactly 0.0 as unset.
    none models the "unknown" return. -/
def calculate_eta (startTime : Option ℚ) (processed totalPages : Nat) (now : ℚ) :
    Option ℚ :=
  match startTime with
  | none => none
  | some t0 =>
    if processed = 0 ∨ t0 = 0 then none
    else
      let elapsed := now - t0
      let avg := elapsed / (processed : ℚ)
      some (((totalPages : ℚ) - (processed : ℚ)) * avg)

/-- The page text of the spec's end-to-end scenario. -/
def c9text : List Char := "WA 12345 · 2024-03-01 10:00:00 JohnDoe terrible merge".data

/-- The record that scenario extracts. -/
def c9rec : Record :=
  ⟨"WA 12345".data, some ⟨2024, 3, 1, 10, 0, 0⟩, "JohnDoe".data, "terrible merge".data⟩

/-- Page text with no middle-dot delimiter, so that only strategy 2 matches. -/
def txtB : List Char := "WA 12345 2024-03-01 10:00:00 JohnDoe bad driver".data

/-- The environment of the 10-page crawl scenario: fetching pages 3 and 7
    fails transiently, every other page yields text from which exactly one
    valid record is extracted, and every database operation succeeds. -/
def env10 : PageEnv :=
  ⟨fun p => if p = 3 ∨ p = 7 then none else some c9text,
   fun _ => [],
   fun _ => ⟨true, fun _ => true⟩⟩

/-- An environment in which every fetch fails transiently. -/
def envAllFail : PageEnv :=
  ⟨fun _ => none, fun _ => [], fun _ => ⟨true, fun _ => true⟩⟩

/-! Helper lemmas. -/

/-- The end-to-end scenario's page text extracts exactly its one record. -/
lemma extract_c9 : extract_comments_from_page c9text [] = [c9rec] := by decide

/-- A record built by strategy 1 carries a parsed timestamp. -/
lemma buildRecord1_date {a b c : List Char} {r : Record}
    (h : buildRecord1 a b c = some r) : r.date ≠ none := by
  unfold buildRecord1 at h
  cases hp : parse_datetime (stripList b) <;> simp only [hp] at h
  · cases h
  · cases h
    simp

/-- A record built by strategy 2 carries a parsed timestamp. -/
lemma buildRecord2_date {a b c : List Char} {r : Record}
    (h : buildRecord2 a b c = some r) : r.date ≠ none := by
  unfold buildRecord2 at h
  cases hp : parse_datetime b <;> simp only [hp] at h
  · cases h
  · cases h
    simp

/-- A record built by strategy 3 carries a parsed timestamp. -/
lemma buildRecord3_date {a b c : List Char} {r : Record}
    (h : buildRecord3 a b c = some r) : r.date ≠ none := by
  unfold buildRecord3 at h
  cases hp : parse_datetime b <;> simp only [hp] at h
  · cases h
  · cases h
    simp

/-- Every record produced by the strategy loop comes from one of the result
    lists or from the accumulator. -/
lemma strategyLoop_preserves (P : Record → Prop) :
    ∀ (ls : List (Except Unit (List Record))) (acc : List Record),
      (∀ cs, Except.ok cs ∈ ls → ∀ r ∈ cs, P r) → (∀ r ∈ acc, P r) →
      ∀ r ∈ strategyLoop ls acc, P r := by
  intro ls
  induction ls with
  | nil => intro acc _ hacc; simpa [strategyLoop] using hacc
  | cons e rs ih =>
    intro acc hls hacc
    cases e with
    | error u =>
      exact ih acc (fun cs hcs => hls cs (List.mem_cons_of_mem _ hcs)) hacc
    | ok cs =>
      have hcs : ∀ r ∈ cs, P r := hls cs (List.mem_cons_self _ _)
      show ∀ r ∈ (if cs.isEmpty then strategyLoop rs cs else cs), P r
      split
      · exact ih cs (fun cs1 h1 => hls cs1 (List.mem_cons_of_mem _ h1)) hcs
      · exact hcs

/-- Every record returned by any of the three strategies has a timestamp. -/
lemma strategies_date (text : List Char) (fragments : List (List Char)) :
    (∀ r ∈ parse_strategy_1 text, r.date ≠ none) ∧
    (∀ r ∈ parse_strategy_2 text, r.date ≠ none) ∧
    (∀ r ∈ parse_strategy_3 fragments, r.date ≠ none) := by
  refine ⟨?_, ?_, ?_⟩
  · intro r hr
    obtain ⟨g, _, hg⟩ := List.mem_filterMap.mp hr
    exact buildRecord1_date hg
  · intro r hr
    obtain ⟨g, _, hg⟩ := List.mem_filterMap.mp hr
    exact buildRecord2_date hg
  · intro r hr
    obtain ⟨frag, _, hg⟩ := List.mem_filterMap.mp hr
    unfold frag3 at hg
    split at hg
    · exact buildRecord3_date hg
    · cases hg

/-- If the three regex patterns all fail, the leading uppercase run is
    shorter than 2. -/
lemma regionPatterns_none {pc : List Char} (h : regionPatterns pc = none) :
    (pc.takeWhile isUpperCh).length < 2 := by
  simp only [regionPatterns] at h
  split at h
  · cases h
  · split at h
    · cases h
    · split at h
      · cases h
      · omega

/-- save_comments_to_db when the connection and every insert succeed. -/
lemma save_all_ok (db : DbBehavior) (c : List Record)
    (hc : db.connOk = true) (hr : ∀ r, db.recOk r = true) :
    save_comments_to_db db c =
      ⟨c.length, 0, !c.isEmpty, false,
       c.map (fun r => (r.plate, extract_region_code r.plate))⟩ := by
  have hfilter : c.filter db.recOk = c := List.filter_eq_self.mpr (fun r _ => hr r)
  have hfilter2 : c.filter (fun r => ! db.recOk r) = [] := by
    apply List.filter_eq_nil_iff.mpr
    intro r _
    simp [hr r]
  unfold save_comments_to_db
  cases c with
  | nil => simp
  | cons a l =>
    rw [hc]
    simp only [List.isEmpty_cons, if_true, hfilter, hfilter2]
    simp

/-- A page whose fetch fails only increments the error counter. -/
lemma crawlPage_fetch_none {env : PageEnv} {p : Nat} (s : CrawlState)
    (h : env.fetch p = none) :
    crawlPage env s p = ⟨s.processed_pages, s.total_records, s.error_count + 1⟩ := by
  unfold crawlPage
  rw [h]

/-- A page whose fetch and save succeed is counted as processed and adds
    the extracted records to the saved total. -/
lemma crawlPage_fetch_ok {env : PageEnv} {p : Nat} (s : CrawlState) (t : List Char)
    (h : env.fetch p = some t) (hc : (env.db p).connOk = true)
    (hr : ∀ r, (env.db p).recOk r = true) :
    crawlPage env s p =
      ⟨s.processed_pages + 1,
       s.total_records + (extract_comments_from_page t (env.fragments p)).length,
       s.error_count⟩ := by
  unfold crawlPage
  rw [h]
  simp only [save_all_ok _ _ hc hr]
  simp

/-! The claims. -/

/-- Claim C10: when the batch passed to save_comments_to_db is empty it
    returns a saved count of 0 immediately: no database connection is
    attempted, nothing is inserted, no error is counted and nothing is
    raised, whatever the database would have done. -/
theorem C10_save_empty_noop (db : DbBehavior) :
    save_comments_to_db db [] = ⟨0, 0, false, false, []⟩ := rfl

/-- Claim C8: calculate_eta returns "unknown" (none) whenever
    processed_pages is 0, and for a positive page count and a set start
    time it returns (total_pages - pages_processed) * (elapsed /
    pages_processed). -/
theorem C8_calculate_eta_spec :
    (∀ (st : Option ℚ) (pr tot : Nat) (now : ℚ),
        pr = 0 → calculate_eta st pr tot now = none) ∧
    (∀ (t0 : ℚ) (pr tot : Nat) (now : ℚ), 0 < pr → t0 ≠ 0 →
        calculate_eta (some t0) pr tot now =
          some (((tot : ℚ) - (pr : ℚ)) * ((now - t0) / (pr : ℚ)))) := by
  constructor
  · intro st pr tot now hpr
    cases st with
    | none => rfl
    | some t0 => simp [calculate_eta, hpr]
  · intro t0 pr tot now hpr ht0
    simp [calculate_eta, Nat.pos_iff_ne_zero.mp hpr, ht0]

/-- Witness for C8 at concrete inputs. -/
theorem C8_calculate_eta_spec_witness :
    calculate_eta (some 2) 0 100 10 = none ∧
    calculate_eta (some 2) 4 100 10 =
      some (((100 : ℚ) - (4 : ℚ)) * (((10 : ℚ) - 2) / (4 : ℚ))) :=
  ⟨C8_calculate_eta_spec.1 (some 2) 0 100 10 rfl,
   C8_calculate_eta_spec.2 2 4 100 10 (by norm_num) (by norm_num)⟩

/-- Claim C2 (code bug): in a run where every fetch fails, the loop ends
    with processed_pages = 0 and the summary's average-per-page division at
    line 402 has no guard, so the run raises ZeroDivisionError (none)
    instead of reporting the summary. -/
theorem C2_summary_div_by_zero :
    runParser envAllFail 1 1 = ⟨0, 0, 1⟩ ∧
    run_summary envAllFail 1 1 5 = none := ⟨rfl, rfl⟩

/-- Claim C6: extract_region_code is total (always returns a string, UNK on
    empty input) and agrees with the spec's description of
    derive_region_code on every input; the only textual difference, the
    last-resort branch returning the first two letters rather than the whole
    run, is unreachable with a run longer than 2, so the functions are
    extensionally equal. -/
theorem C6_region_code_total_spec_equiv :
    (∀ p : List Char, extract_region_code p = derive_region_code_spec p) ∧
    extract_region_code "".data = "UNK".data := by
  constructor
  · intro p
    simp only [extract_region_code, derive_region_code_spec]
    cases hpat : regionPatterns (collapseWs ((stripList p).map Char.toUpper)) with
    | some r => rfl
    | none =>
      have hlen := regionPatterns_none hpat
      set run := (collapseWs ((stripList p).map Char.toUpper)).takeWhile isUpperCh with hrun
      obtain h0 | h1 : run.length = 0 ∨ run.length = 1 := by omega
      · have hnil : run = [] := List.length_eq_zero.mp h0
        simp [hnil]
      · have hne : run ≠ [] := by
          intro hh
          rw [hh] at h1
          simp at h1
        have ht : run.take 2 = run := List.take_of_length_le (by omega)
        simp [h1, hne, ht]
  · rfl

/-- Claim C9: the end-to-end scenario: from the page text
    "WA 12345 · 2024-03-01 10:00:00 JohnDoe terrible merge" extraction
    produces exactly the record with plate "WA 12345", timestamp
    2024-03-01T10:00:00, author "JohnDoe" and comment "terrible merge",
    and region-code derivation on "WA 12345" yields "WA". -/
theorem C9_end_to_end_scenario :
    extract_comments_from_page c9text [] =
      [⟨"WA 12345".data, some ⟨2024, 3, 1, 10, 0, 0⟩,
        "JohnDoe".data, "terrible merge".data⟩] ∧
    extract_region_code "WA 12345".data = "WA".data :=
  ⟨extract_c9, by decide⟩

/-- Claim C5: every record returned by extract_comments_from_page, under
    whichever strategy produced it, has a non-null timestamp: candidates
    whose date string fails to parse are dropped. -/
theorem C5_extract_timestamp_present (text : List Char) (fragments : List (List Char)) :
    ∀ r ∈ extract_comments_from_page text fragments, r.date ≠ none := by
  have hs := strategies_date text fragments
  refine strategyLoop_preserves _ _ _ ?_ ?_
  · intro cs hcs r hr
    simp only [List.mem_cons, List.not_mem_nil, or_false] at hcs
    rcases hcs with h | h | h
    · cases h; exact hs.1 r hr
    · cases h; exact hs.2.1 r hr
    · cases h; exact hs.2.2 r hr
  · intro r hr
    cases hr

/-- Witness for C5: the record of the end-to-end scenario. -/
theorem C5_extract_timestamp_present_witness : c9rec.date ≠ none :=
  C5_extract_timestamp_present c9text [] c9rec (by rw [extract_c9]; exact List.mem_singleton.mpr rfl)

/-- Claim C4: the strategy loop returns the result of the first strategy
    that yields at least one record, treating a raising strategy as zero
    results; when every strategy raises or yields nothing the result is
    empty; and on the page text with no middle-dot delimiter, where only
    strategy 2's pattern matches, extract returns strategy 2's non-empty
    result. -/
theorem C4_extract_first_nonempty :
    (∀ (rs1 rs2 : List (Except Unit (List Record))) (cs : List Record),
        (∀ r ∈ rs1, r = Except.error () ∨ r = Except.ok []) → cs ≠ [] →
        strategyLoop (rs1 ++ Except.ok cs :: rs2) [] = cs) ∧
    (∀ rs : List (Except Unit (List Record)),
        (∀ r ∈ rs, r = Except.error () ∨ r = Except.ok []) →
        strategyLoop rs [] = []) ∧
    (parse_strategy_1 txtB = [] ∧
     parse_strategy_2 txtB ≠ [] ∧
     extract_comments_from_page txtB [] = parse_strategy_2 txtB) := by
  refine ⟨?_, ?_, by decide, by decide, by decide⟩
  · intro rs1 rs2 cs h hcs
    induction rs1 with
    | nil =>
      show (if cs.isEmpty then strategyLoop rs2 cs else cs) = cs
      rw [if_neg]
      simp [List.isEmpty_iff, hcs]
    | cons e rs ih =>
      have he := h e (List.mem_cons_self _ _)
      have hrest : ∀ r ∈ rs, r = Except.error () ∨ r = Except.ok [] :=
        fun r hr => h r (List.mem_cons_of_mem _ hr)
      rcases he with he | he <;> subst he
      · exact ih hrest
      · exact ih hrest
  · intro rs h
    induction rs with
    | nil => rfl
    | cons e rs ih =>
      have he := h e (List.mem_cons_self _ _)
      have hrest : ∀ r ∈ rs, r = Except.error () ∨ r = Except.ok [] :=
        fun r hr => h r (List.mem_cons_of_mem _ hr)
      rcases he with he | he <;> subst he
      · exact ih hrest
      · exact ih hrest

/-- Witness for C4: one raising strategy, one empty one, then a non-empty
    one, with the scenario record as the winning result. -/
theorem C4_extract_first_nonempty_witness :
    strategyLoop [Except.error (), Except.ok [], Except.ok [c9rec]] [] = [c9rec] :=
  C4_extract_first_nonempty.1 [Except.error (), Except.ok []] [] [c9rec]
    (by
      intro r hr
      rcases List.mem_cons.mp hr with h | h
      · exact Or.inl h
      · exact Or.inr (List.mem_singleton.mp h))
    (List.cons_ne_nil _ _)

/-- Claim C3 (counterexample): in strategy 1, on the page text
    "AB 123 · 2024-01-01 00:00:00 JohnDoe" the trailing text "JohnDoe" has
    one word, yet the produced record's comment is "JohnDoe", not the empty
    string; and on "AB 123 · 2024-01-01 00:00:00   " the trailing text has
    no leading word, yet the author is the empty string, not "Anonymous"
    (str.split(" ", 3) returns a non-empty list even on an empty string, so
    the Anonymous branch of strategy 1 is unreachable). -/
theorem C3_counterexample_strategy1 :
    (parse_strategy_1 "AB 123 · 2024-01-01 00:00:00 JohnDoe".data).map Record.comment
        = ["JohnDoe".data] ∧
    (pySplitWs "JohnDoe".data).length ≤ 1 ∧
    "JohnDoe".data ≠ ([] : List Char) ∧
    (parse_strategy_1 "AB 123 · 2024-01-01 00:00:00   ".data).map Record.author
        = [([] : List Char)] ∧
    ([] : List Char) ≠ "Anonymous".data := by
  refine ⟨by decide, by decide, by decide, by decide, by decide⟩

/-- Claim C3 (amended): in strategies 2 and 3 the defaults are as claimed:
    author "Anonymous" when the trailing text has no leading word, comment
    empty when it has at most one word.  In strategy 1, whose split list is
    never empty, the author is the first split field, which is the empty
    string (never "Anonymous") when the trailing text is empty, and when
    the trailing text has at most one split field the comment equals the
    whole trailing text rather than the empty string. -/
theorem C3_amended_author_comment_defaults :
    (∀ a b c r, buildRecord2 a b c = some r →
        (pySplitWs (stripList c) = [] → r.author = "Anonymous".data) ∧
        ((pySplitWs (stripList c)).length ≤ 1 → r.comment = [])) ∧
    (∀ a b c r, buildRecord3 a b c = some r →
        (pySplitWs (stripList c) = [] → r.author = "Anonymous".data) ∧
        ((pySplitWs (stripList c)).length ≤ 1 → r.comment = [])) ∧
    (∀ a b c r, buildRecord1 a b c = some r →
        (stripList c = [] → r.author = []) ∧
        ((pySplit ' ' 3 (stripList c)).length ≤ 1 →
          r.comment = (stripList c).take 1000)) := by
  refine ⟨?_, ?_, ?_⟩
  · intro a b c r h
    simp only [buildRecord2] at h
    cases hp : parse_datetime b <;> rw [hp] at h
    · cases h
    · cases h
      constructor
      · intro hw
        rw [hw]
        dsimp only
        decide
      · intro hl
        have hnot : ¬ (1 < (pySplitWs (stripList c)).length) := by omega
        simp [hnot]
  · intro a b c r h
    simp only [buildRecord3] at h
    cases hp : parse_datetime b <;> rw [hp] at h
    · cases h
    · cases h
      constructor
      · intro hw
        rw [hw]
        dsimp only
        decide
      · intro hl
        have hnot : ¬ (1 < (pySplitWs (stripList c)).length) := by omega
        simp [hnot]
  · intro a b c r h
    simp only [buildRecord1] at h
    cases hp : parse_datetime (stripList b) <;> rw [hp] at h
    · cases h
    · cases h
      constructor
      · intro hc
        rw [hc]
        dsimp only
        decide
      · intro hl
        have hnot : ¬ (1 < (pySplit ' ' 3 (stripList c)).length) := by omega
        dsimp only
        simp only [hnot, if_false]
        by_cases hce : stripList c = []
        · simp [hce]
        · simp [hce]

/-- Witness for C3 amended, at a concrete strategy-2 build with an empty
    trailing text. -/
theorem C3_amended_author_comment_defaults_witness :
    (⟨[], some ⟨2024, 1, 1, 0, 0, 0⟩, "Anonymous".data, []⟩ : Record).author
        = "Anonymous".data ∧
    (⟨[], some ⟨2024, 1, 1, 0, 0, 0⟩, "Anonymous".data, []⟩ : Record).comment
        = [] := by
  have h := C3_amended_author_comment_defaults.1 [] "2024-01-01".data []
      ⟨[], some ⟨2024, 1, 1, 0, 0, 0⟩, "Anonymous".data, []⟩ (by decide)
  exact ⟨h.1 (by decide), h.2 (by decide)⟩

/-- Claim C1 (counterexample): in the 10-page scenario with pages 3 and 7
    failing fetch and one record per other page, the run ends with
    processed_pages = 8, not 10: the loop counts only pages whose fetch
    succeeded (the fetch-failure path continues before the increment at
    line 378). -/
theorem C1_counterexample_processed_pages :
    runParser env10 1 10 = ⟨8, 8, 2⟩ ∧
    (runParser env10 1 10).processed_pages ≠ 10 := by
  refine ⟨by decide, by decide⟩

/-- Claim C1 (amended): in any environment realising the scenario (fetch of
    pages 3 and 7 fails, every other page in 1..10 fetches text from which
    exactly one record is extracted and the database accepts everything),
    runParser ends with pages_processed = 8, records_saved = 8 and
    error_count = 2, and the run completes without raising (the summary is
    produced). -/
theorem C1_amended_crawl_totals (env : PageEnv) (e : ℚ)
    (h3 : env.fetch 3 = none) (h7 : env.fetch 7 = none)
    (hok : ∀ p ∈ ([1, 2, 4, 5, 6, 8, 9, 10] : List Nat),
      ∃ t, env.fetch p = some t ∧
        (extract_comments_from_page t (env.fragments p)).length = 1 ∧
        (env.db p).connOk = true ∧ ∀ r, (env.db p).recOk r = true) :
    runParser env 1 10 = ⟨8, 8, 2⟩ ∧ run_summary env 1 10 e ≠ none := by
  obtain ⟨t1, hf1, hl1, hc1, hr1⟩ := hok 1 (by decide)
  obtain ⟨t2, hf2, hl2, hc2, hr2⟩ := hok 2 (by decide)
  obtain ⟨t4, hf4, hl4, hc4, hr4⟩ := hok 4 (by decide)
  obtain ⟨t5, hf5, hl5, hc5, hr5⟩ := hok 5 (by decide)
  obtain ⟨t6, hf6, hl6, hc6, hr6⟩ := hok 6 (by decide)
  obtain ⟨t8, hf8, hl8, hc8, hr8⟩ := hok 8 (by decide)
  obtain ⟨t9, hf9, hl9, hc9, hr9⟩ := hok 9 (by decide)
  obtain ⟨t10, hf10, hl10, hc10, hr10⟩ := hok 10 (by decide)
  have hrun : runParser env 1 10 = ⟨8, 8, 2⟩ := by
    unfold runParser
    rw [show (10 + 1 - 1 : Nat) = 10 from rfl,
        show List.range' 1 10 = [1, 2, 3, 4, 5, 6, 7, 8, 9, 10] from rfl]
    simp only [List.foldl_cons, List.foldl_nil]
    rw [crawlPage_fetch_ok _ t1 hf1 hc1 hr1, hl1,
        crawlPage_fetch_ok _ t2 hf2 hc2 hr2, hl2,
        crawlPage_fetch_none _ h3,
        crawlPage_fetch_ok _ t4 hf4 hc4 hr4, hl4,
        crawlPage_fetch_ok _ t5 hf5 hc5 hr5, hl5,
        crawlPage_fetch_ok _ t6 hf6 hc6 hr6, hl6,
        crawlPage_fetch_none _ h7,
        crawlPage_fetch_ok _ t8 hf8 hc8 hr8, hl8,
        crawlPage_fetch_ok _ t9 hf9 hc9 hr9, hl9,
        crawlPage_fetch_ok _ t10 hf10 hc10 hr10, hl10]
  refine ⟨hrun, ?_⟩
  simp only [run_summary, hrun]
  simp

/-! Format invariance of parse_datetime (claim C7). -/

/-- A datetime value acceptable to the datetime constructor and expressible
    with a four-digit year. -/
def ValidDT (d : PDateTime) : Prop :=
  1 ≤ d.year ∧ d.year ≤ 9999 ∧ 1 ≤ d.month ∧ d.month ≤ 12 ∧
  1 ≤ d.day ∧ d.day ≤ daysInMonth d.year d.month ∧
  d.hour ≤ 23 ∧ d.minute ≤ 59 ∧ d.second ≤ 59

/-- Canonical rendering of a datetime in one of the program's formats:
    zero-padded fields in the format's order. -/
def renderDT (dayFirst : Bool) (sep : Char) (hasTime : Bool) (d : PDateTime) :
    List Char :=
  (if dayFirst then pad2 d.day ++ sep :: pad2 d.month ++ sep :: pad4 d.year
   else pad4 d.year ++ sep :: pad2 d.month ++ sep :: pad2 d.day) ++
  (if hasTime then
    ' ' :: (pad2 d.hour ++ ':' :: pad2 d.minute ++ ':' :: pad2 d.second)
  else [])

lemma digitChar_isDigit {n : Nat} (h : n < 10) : (Nat.digitChar n).isDigit = true := by
  interval_cases n <;> decide

lemma charVal_digitChar {n : Nat} (h : n < 10) : charVal (Nat.digitChar n) = n := by
  interval_cases n <;> decide

lemma digitChar_not_ws {n : Nat} (h : n < 10) : isWsChar (Nat.digitChar n) = false := by
  interval_cases n <;> decide

lemma digitChar_ne_space {n : Nat} (h : n < 10) : Nat.digitChar n ≠ ' ' := by
  interval_cases n <;> decide

lemma pad2_all_digit {n : Nat} (h : n ≤ 99) : ∀ c ∈ pad2 n, c.isDigit = true := by
  intro c hc
  simp only [pad2, List.mem_cons, List.not_mem_nil, or_false] at hc
  rcases hc with rfl | rfl
  · exact digitChar_isDigit (by omega)
  · exact digitChar_isDigit (by omega)

lemma pad4_all_digit {n : Nat} (h : n ≤ 9999) : ∀ c ∈ pad4 n, c.isDigit = true := by
  intro c hc
  simp only [pad4, List.mem_cons, List.not_mem_nil, or_false] at hc
  rcases hc with rfl | rfl | rfl | rfl
  · exact digitChar_isDigit (by omega)
  · exact digitChar_isDigit (by omega)
  · exact digitChar_isDigit (by omega)
  · exact digitChar_isDigit (by omega)

lemma runVal_pad2 {n : Nat} (h : n ≤ 99) : runVal (pad2 n) = n := by
  simp only [runVal, pad2, List.foldl_cons, List.foldl_nil,
    charVal_digitChar (show n / 10 < 10 by omega),
    charVal_digitChar (show n % 10 < 10 by omega)]
  omega

lemma runVal_pad4 {n : Nat} (h : n ≤ 9999) : runVal (pad4 n) = n := by
  simp only [runVal, pad4, List.foldl_cons, List.foldl_nil,
    charVal_digitChar (show n / 1000 < 10 by omega),
    charVal_digitChar (show n / 100 % 10 < 10 by omega),
    charVal_digitChar (show n / 10 % 10 < 10 by omega),
    charVal_digitChar (show n % 10 < 10 by omega)]
  omega

lemma pad2_length (n : Nat) : (pad2 n).length = 2 := rfl

lemma pad4_length (n : Nat) : (pad4 n).length = 4 := rfl

lemma takeWhile_split {p : Char → Bool} {l1 l2 : List Char} {c : Char}
    (h1 : ∀ x ∈ l1, p x = true) (h2 : p c = false) :
    (l1 ++ c :: l2).takeWhile p = l1 := by
  induction l1 with
  | nil => simp [List.takeWhile_cons, h2]
  | cons a t ih =>
    have ha := h1 a (List.mem_cons_self _ _)
    simp only [List.cons_append, List.takeWhile_cons, ha, if_true]
    rw [ih (fun x hx => h1 x (List.mem_cons_of_mem _ hx))]

lemma dropWhile_split {p : Char → Bool} {l1 l2 : List Char} {c : Char}
    (h1 : ∀ x ∈ l1, p x = true) (h2 : p c = false) :
    (l1 ++ c :: l2).dropWhile p = c :: l2 := by
  induction l1 with
  | nil => simp [List.dropWhile_cons, h2]
  | cons a t ih =>
    have ha := h1 a (List.mem_cons_self _ _)
    simp only [List.cons_append, List.dropWhile_cons, ha, if_true]
    exact ih (fun x hx => h1 x (List.mem_cons_of_mem _ hx))

lemma takeWhile_of_all {p : Char → Bool} {l : List Char}
    (h : ∀ x ∈ l, p x = true) : l.takeWhile p = l := by
  induction l with
  | nil => rfl
  | cons a t ih =>
    simp only [List.takeWhile_cons, h a (List.mem_cons_self _ _), if_true]
    rw [ih (fun x hx => h x (List.mem_cons_of_mem _ hx))]

lemma dropWhile_of_all {p : Char → Bool} {l : List Char}
    (h : ∀ x ∈ l, p x = true) : l.dropWhile p = [] := by
  induction l with
  | nil => rfl
  | cons a t ih =>
    simp only [List.dropWhile_cons, h a (List.mem_cons_self _ _), if_true]
    exact ih (fun x hx => h x (List.mem_cons_of_mem _ hx))

lemma numField_sep {minLen maxLen lo hi : Nat} {dl m : List Char} {c : Char}
    (hd : ∀ x ∈ dl, x.isDigit = true) (hc : c.isDigit = false)
    (hcond : minLen ≤ dl.length ∧ dl.length ≤ maxLen ∧
             lo ≤ runVal dl ∧ runVal dl ≤ hi) :
    numField minLen maxLen lo hi (dl ++ c :: m) = some (runVal dl, c :: m) := by
  simp only [numField, takeWhile_split hd hc, dropWhile_split hd hc]
  rw [if_pos hcond]

lemma numField_sep_none {minLen maxLen lo hi : Nat} {dl m : List Char} {c : Char}
    (hd : ∀ x ∈ dl, x.isDigit = true) (hc : c.isDigit = false)
    (hcond : ¬ (minLen ≤ dl.length ∧ dl.length ≤ maxLen ∧
                lo ≤ runVal dl ∧ runVal dl ≤ hi)) :
    numField minLen maxLen lo hi (dl ++ c :: m) = none := by
  simp only [numField, takeWhile_split hd hc, dropWhile_split hd hc]
  rw [if_neg hcond]

lemma numField_end {minLen maxLen lo hi : Nat} {dl : List Char}
    (hd : ∀ x ∈ dl, x.isDigit = true)
    (hcond : minLen ≤ dl.length ∧ dl.length ≤ maxLen ∧
             lo ≤ runVal dl ∧ runVal dl ≤ hi) :
    numField minLen maxLen lo hi dl = some (runVal dl, []) := by
  simp only [numField, takeWhile_of_all hd, dropWhile_of_all hd]
  rw [if_pos hcond]

lemma numField_end_none {minLen maxLen lo hi : Nat} {dl : List Char}
    (hd : ∀ x ∈ dl, x.isDigit = true)
    (hcond : ¬ (minLen ≤ dl.length ∧ dl.length ≤ maxLen ∧
                lo ≤ runVal dl ∧ runVal dl ≤ hi)) :
    numField minLen maxLen lo hi dl = none := by
  simp only [numField, takeWhile_of_all hd, dropWhile_of_all hd]
  rw [if_neg hcond]

lemma dayField_pad2_sep {dd : Nat} {c : Char} {l2 : List Char}
    (h1 : 1 ≤ dd) (h2 : dd ≤ 31) (hc : c.isDigit = false) :
    dayField (pad2 dd ++ c :: l2) = some (dd, c :: l2) := by
  have hv : runVal (pad2 dd) = dd := runVal_pad2 (by omega)
  have hcond : 1 ≤ (pad2 dd).length ∧ (pad2 dd).length ≤ 2 ∧
      1 ≤ runVal (pad2 dd) ∧ runVal (pad2 dd) ≤ 31 := by
    rw [pad2_length, hv]
    omega
  have hnf := numField_sep (m := l2) (c := c)
      (pad2_all_digit (show dd ≤ 99 by omega)) hc hcond
  rw [hv] at hnf
  show dayField (Nat.digitChar (dd / 10) :: Nat.digitChar (dd % 10) :: c :: l2) = _
  simp only [dayField]
  rw [if_neg (digitChar_ne_space (show dd / 10 < 10 by omega))]
  exact hnf

lemma dayField_pad2_end {dd : Nat} (h1 : 1 ≤ dd) (h2 : dd ≤ 31) :
    dayField (pad2 dd) = some (dd, []) := by
  have hv : runVal (pad2 dd) = dd := runVal_pad2 (by omega)
  have hcond : 1 ≤ (pad2 dd).length ∧ (pad2 dd).length ≤ 2 ∧
      1 ≤ runVal (pad2 dd) ∧ runVal (pad2 dd) ≤ 31 := by
    rw [pad2_length, hv]
    omega
  have hnf := numField_end (pad2_all_digit (show dd ≤ 99 by omega)) hcond
  rw [hv] at hnf
  show dayField (Nat.digitChar (dd / 10) :: Nat.digitChar (dd % 10) :: []) = _
  simp only [dayField]
  rw [if_neg (digitChar_ne_space (show dd / 10 < 10 by omega))]
  exact hnf

lemma dayField_pad4_sep_none {y : Nat} {c : Char} {l2 : List Char}
    (hy : y ≤ 9999) (hc : c.isDigit = false) :
    dayField (pad4 y ++ c :: l2) = none := by
  have hcond : ¬ (1 ≤ (pad4 y).length ∧ (pad4 y).length ≤ 2 ∧
      1 ≤ runVal (pad4 y) ∧ runVal (pad4 y) ≤ 31) := by
    rw [pad4_length]
    omega
  have hnf := numField_sep_none (m := l2) (c := c) (pad4_all_digit hy) hc hcond
  show dayField (Nat.digitChar (y / 1000) :: Nat.digitChar (y / 100 % 10) ::
        Nat.digitChar (y / 10 % 10) :: Nat.digitChar (y % 10) :: c :: l2) = none
  simp only [dayField]
  rw [if_neg (digitChar_ne_space (show y / 1000 < 10 by omega))]
  exact hnf

lemma dayField_pad4_end_none {y : Nat} (hy : y ≤ 9999) :
    dayField (pad4 y) = none := by
  have hcond : ¬ (1 ≤ (pad4 y).length ∧ (pad4 y).length ≤ 2 ∧
      1 ≤ runVal (pad4 y) ∧ runVal (pad4 y) ≤ 31) := by
    rw [pad4_length]
    omega
  have hnf := numField_end_none (pad4_all_digit hy) hcond
  show dayField (Nat.digitChar (y / 1000) :: Nat.digitChar (y / 100 % 10) ::
        Nat.digitChar (y / 10 % 10) :: Nat.digitChar (y % 10) :: []) = none
  simp only [dayField]
  rw [if_neg (digitChar_ne_space (show y / 1000 < 10 by omega))]
  exact hnf

lemma litChar_self {c : Char} {l : List Char} : litChar c (c :: l) = some l := by
  simp [litChar]

lemma litChar_ne {c c1 : Char} {l : List Char} (h : c1 ≠ c) :
    litChar c (c1 :: l) = none := by
  simp [litChar, h]

lemma wsPlus_space_cons {c : Char} {l : List Char} (hc : isWsChar c = false) :
    wsPlus (' ' :: c :: l) = some (c :: l) := by
  have hsp : isWsChar ' ' = true := by decide
  simp [wsPlus, List.takeWhile_cons, List.dropWhile_cons, hsp, hc]

lemma wsPlus_nil : wsPlus [] = none := rfl

lemma wsPlus_space_pad2 {n : Nat} {l : List Char} (hn : n ≤ 99) :
    wsPlus (' ' :: (pad2 n ++ l)) = some (pad2 n ++ l) :=
  wsPlus_space_cons (digitChar_not_ws (show n / 10 < 10 by omega))

lemma numField_pad2_sep {minLen maxLen lo hi n : Nat} {c : Char} {l2 : List Char}
    (hn : n ≤ 99) (hminLen : minLen ≤ 2) (hmaxLen : 2 ≤ maxLen)
    (hlo : lo ≤ n) (hhi : n ≤ hi) (hc : c.isDigit = false) :
    numField minLen maxLen lo hi (pad2 n ++ c :: l2) = some (n, c :: l2) := by
  have hv : runVal (pad2 n) = n := runVal_pad2 hn
  have hcond : minLen ≤ (pad2 n).length ∧ (pad2 n).length ≤ maxLen ∧
      lo ≤ runVal (pad2 n) ∧ runVal (pad2 n) ≤ hi := by
    rw [pad2_length, hv]
    omega
  have hnf := numField_sep (m := l2) (c := c) (pad2_all_digit hn) hc hcond
  rw [hv] at hnf
  exact hnf

lemma numField_pad2_end {minLen maxLen lo hi n : Nat}
    (hn : n ≤ 99) (hminLen : minLen ≤ 2) (hmaxLen : 2 ≤ maxLen)
    (hlo : lo ≤ n) (hhi : n ≤ hi) :
    numField minLen maxLen lo hi (pad2 n) = some (n, []) := by
  have hv : runVal (pad2 n) = n := runVal_pad2 hn
  have hcond : minLen ≤ (pad2 n).length ∧ (pad2 n).length ≤ maxLen ∧
      lo ≤ runVal (pad2 n) ∧ runVal (pad2 n) ≤ hi := by
    rw [pad2_length, hv]
    omega
  have hnf := numField_end (pad2_all_digit hn) hcond
  rw [hv] at hnf
  exact hnf

lemma numField_year_sep {y : Nat} {c : Char} {l2 : List Char}
    (hy : y ≤ 9999) (hc : c.isDigit = false) :
    numField 4 4 0 9999 (pad4 y ++ c :: l2) = some (y, c :: l2) := by
  have hv : runVal (pad4 y) = y := runVal_pad4 hy
  have hcond : 4 ≤ (pad4 y).length ∧ (pad4 y).length ≤ 4 ∧
      0 ≤ runVal (pad4 y) ∧ runVal (pad4 y) ≤ 9999 := by
    rw [pad4_length, hv]
    omega
  have hnf := numField_sep (m := l2) (c := c) (pad4_all_digit hy) hc hcond
  rw [hv] at hnf
  exact hnf

lemma numField_year_end {y : Nat} (hy : y ≤ 9999) :
    numField 4 4 0 9999 (pad4 y) = some (y, []) := by
  have hv : runVal (pad4 y) = y := runVal_pad4 hy
  have hcond : 4 ≤ (pad4 y).length ∧ (pad4 y).length ≤ 4 ∧
      0 ≤ runVal (pad4 y) ∧ runVal (pad4 y) ≤ 9999 := by
    rw [pad4_length, hv]
    omega
  have hnf := numField_end (pad4_all_digit hy) hcond
  rw [hv] at hnf
  exact hnf

lemma numField_year_pad2_none {n : Nat} {c : Char} {l2 : List Char}
    (hn : n ≤ 99) (hc : c.isDigit = false) :
    numField 4 4 0 9999 (pad2 n ++ c :: l2) = none := by
  apply numField_sep_none (pad2_all_digit hn) hc
  rw [pad2_length]
  omega

lemma daysInMonth_le_31 (y m : Nat) : daysInMonth y m ≤ 31 := by
  unfold daysInMonth
  split_ifs <;> omega

lemma parseDMY_sep {sep c : Char} {dd mo y : Nat} {l2 : List Char}
    (hdd1 : 1 ≤ dd) (hdd2 : dd ≤ 31) (hmo1 : 1 ≤ mo) (hmo2 : mo ≤ 12)
    (hy : y ≤ 9999) (hsep : sep.isDigit = false) (hc : c.isDigit = false) :
    parseDMY sep (pad2 dd ++ sep :: (pad2 mo ++ sep :: (pad4 y ++ c :: l2))) =
      some (y, mo, dd, c :: l2) := by
  unfold parseDMY
  rw [dayField_pad2_sep hdd1 hdd2 hsep]
  dsimp only
  rw [litChar_self]
  dsimp only
  rw [numField_pad2_sep (show mo ≤ 99 by omega) (by omega) (by omega) hmo1 hmo2 hsep]
  dsimp only
  rw [litChar_self]
  dsimp only
  rw [numField_year_sep hy hc]

lemma parseDMY_end {sep : Char} {dd mo y : Nat}
    (hdd1 : 1 ≤ dd) (hdd2 : dd ≤ 31) (hmo1 : 1 ≤ mo) (hmo2 : mo ≤ 12)
    (hy : y ≤ 9999) (hsep : sep.isDigit = false) :
    parseDMY sep (pad2 dd ++ sep :: (pad2 mo ++ sep :: pad4 y)) =
      some (y, mo, dd, []) := by
  unfold parseDMY
  rw [dayField_pad2_sep hdd1 hdd2 hsep]
  dsimp only
  rw [litChar_self]
  dsimp only
  rw [numField_pad2_sep (show mo ≤ 99 by omega) (by omega) (by omega) hmo1 hmo2 hsep]
  dsimp only
  rw [litChar_self]
  dsimp only
  rw [numField_year_end hy]

lemma parseYMD_sep {sep c : Char} {dd mo y : Nat} {l2 : List Char}
    (hdd1 : 1 ≤ dd) (hdd2 : dd ≤ 31) (hmo1 : 1 ≤ mo) (hmo2 : mo ≤ 12)
    (hy : y ≤ 9999) (hsep : sep.isDigit = false) (hc : c.isDigit = false) :
    parseYMD sep (pad4 y ++ sep :: (pad2 mo ++ sep :: (pad2 dd ++ c :: l2))) =
      some (y, mo, dd, c :: l2) := by
  unfold parseYMD
  rw [numField_year_sep hy hsep]
  dsimp only
  rw [litChar_self]
  dsimp only
  rw [numField_pad2_sep (show mo ≤ 99 by omega) (by omega) (by omega) hmo1 hmo2 hsep]
  dsimp only
  rw [litChar_self]
  dsimp only
  rw [dayField_pad2_sep hdd1 hdd2 hc]

lemma parseYMD_end {sep : Char} {dd mo y : Nat}
    (hdd1 : 1 ≤ dd) (hdd2 : dd ≤ 31) (hmo1 : 1 ≤ mo) (hmo2 : mo ≤ 12)
    (hy : y ≤ 9999) (hsep : sep.isDigit = false) :
    parseYMD sep (pad4 y ++ sep :: (pad2 mo ++ sep :: pad2 dd)) =
      some (y, mo, dd, []) := by
  unfold parseYMD
  rw [numField_year_sep hy hsep]
  dsimp only
  rw [litChar_self]
  dsimp only
  rw [numField_pad2_sep (show mo ≤ 99 by omega) (by omega) (by omega) hmo1 hmo2 hsep]
  dsimp only
  rw [litChar_self]
  dsimp only
  rw [dayField_pad2_end hdd1 hdd2]

lemma parseYMD_pad2_none {sep sep2 : Char} {dd : Nat} {l2 : List Char}
    (hdd : dd ≤ 99) (hsep2 : sep2.isDigit = false) :
    parseYMD sep (pad2 dd ++ sep2 :: l2) = none := by
  unfold parseYMD
  rw [numField_year_pad2_none hdd hsep2]

lemma parseDMY_pad4_none {sep c : Char} {y : Nat} {l2 : List Char}
    (hy : y ≤ 9999) (hc : c.isDigit = false) :
    parseDMY sep (pad4 y ++ c :: l2) = none := by
  unfold parseDMY
  rw [dayField_pad4_sep_none hy hc]

lemma parseDMY_sep_mismatch {sep sep2 : Char} {dd : Nat} {l2 : List Char}
    (hdd1 : 1 ≤ dd) (hdd2 : dd ≤ 31) (hsep2 : sep2.isDigit = false)
    (hne : sep2 ≠ sep) :
    parseDMY sep (pad2 dd ++ sep2 :: l2) = none := by
  unfold parseDMY
  rw [dayField_pad2_sep hdd1 hdd2 hsep2]
  dsimp only
  rw [litChar_ne hne]

lemma parseTimePart_full {h mi s : Nat} (hh : h ≤ 23) (hmi : mi ≤ 59) (hs : s ≤ 59) :
    parseTimePart (pad2 h ++ ':' :: (pad2 mi ++ ':' :: pad2 s)) =
      some (h, mi, s, []) := by
  have hcolon : (':' : Char).isDigit = false := by decide
  unfold parseTimePart
  rw [numField_pad2_sep (show h ≤ 99 by omega) (by omega) (by omega) (by omega) hh hcolon]
  dsimp only
  rw [litChar_self]
  dsimp only
  rw [numField_pad2_sep (show mi ≤ 99 by omega) (by omega) (by omega) (by omega) hmi hcolon]
  dsimp only
  rw [litChar_self]
  dsimp only
  rw [numField_pad2_end (show s ≤ 99 by omega) (by omega) (by omega) (by omega) hs]

lemma tryFormats_cons_none {f : List Char → Option PDateTime}
    {fs : List (List Char → Option PDateTime)} {l : List Char} (h : f l = none) :
    tryFormats (f :: fs) l = tryFormats fs l := by
  simp only [tryFormats, h]

lemma tryFormats_cons_some {f : List Char → Option PDateTime}
    {fs : List (List Char → Option PDateTime)} {l : List Char} {d : PDateTime}
    (h : f l = some d) :
    tryFormats (f :: fs) l = some d := by
  simp only [tryFormats, h]

lemma tryFormats_all_none {fs : List (List Char → Option PDateTime)} {l : List Char}
    (h : ∀ f ∈ fs, f l = none) : tryFormats fs l = none := by
  induction fs with
  | nil => rfl
  | cons f fs ih =>
    rw [tryFormats_cons_none (h f (List.mem_cons_self _ _))]
    exact ih (fun g hg => h g (List.mem_cons_of_mem _ hg))

lemma dropWhile_cons_of_neg {p : Char → Bool} {c : Char} {l : List Char}
    (h : p c = false) : (c :: l).dropWhile p = c :: l := by
  simp [List.dropWhile_cons, h]

lemma stripList_eq_of_drops {l : List Char}
    (h1 : l.dropWhile isWsChar = l)
    (h2 : l.reverse.dropWhile isWsChar = l.reverse) :
    stripList l = l := by
  unfold stripList
  rw [h1, h2, List.reverse_reverse]

lemma pf_true_on_pad4 {sep c : Char} {ht : Bool} {y : Nat} {l2 : List Char}
    (hy : y ≤ 9999) (hc : c.isDigit = false) :
    pf true sep ht (pad4 y ++ c :: l2) = none := by
  simp only [pf, parseDatePart]
  rw [parseDMY_pad4_none hy hc]

lemma pf_false_on_pad2 {sep sep2 : Char} {ht : Bool} {dd : Nat} {l2 : List Char}
    (hdd : dd ≤ 99) (hsep2 : sep2.isDigit = false) :
    pf false sep ht (pad2 dd ++ sep2 :: l2) = none := by
  simp only [pf, parseDatePart]
  rw [parseYMD_pad2_none hdd hsep2]

lemma pf_true_sep_mismatch {sep sep2 : Char} {ht : Bool} {dd : Nat} {l2 : List Char}
    (hdd1 : 1 ≤ dd) (hdd2 : dd ≤ 31) (hsep2 : sep2.isDigit = false)
    (hne : sep2 ≠ sep) :
    pf true sep ht (pad2 dd ++ sep2 :: l2) = none := by
  simp only [pf, parseDatePart]
  rw [parseDMY_sep_mismatch hdd1 hdd2 hsep2 hne]

lemma pf_dmyT_dateonly_none {sep : Char} {dd mo y : Nat}
    (hdd1 : 1 ≤ dd) (hdd2 : dd ≤ 31) (hmo1 : 1 ≤ mo) (hmo2 : mo ≤ 12)
    (hy : y ≤ 9999) (hsep : sep.isDigit = false) :
    pf true sep true (pad2 dd ++ sep :: (pad2 mo ++ sep :: pad4 y)) = none := by
  simp only [pf, parseDatePart]
  rw [parseDMY_end hdd1 hdd2 hmo1 hmo2 hy hsep]
  dsimp only
  rw [wsPlus_nil]

lemma pf_ymdT_dateonly_none {sep : Char} {dd mo y : Nat}
    (hdd1 : 1 ≤ dd) (hdd2 : dd ≤ 31) (hmo1 : 1 ≤ mo) (hmo2 : mo ≤ 12)
    (hy : y ≤ 9999) (hsep : sep.isDigit = false) :
    pf false sep true (pad4 y ++ sep :: (pad2 mo ++ sep :: pad2 dd)) = none := by
  simp only [pf, parseDatePart]
  rw [parseYMD_end hdd1 hdd2 hmo1 hmo2 hy hsep]
  dsimp only
  rw [wsPlus_nil]

lemma pf_dmyT_success {sep : Char} {dd mo y h mi s : Nat}
    (hdd1 : 1 ≤ dd) (hdd2 : dd ≤ 31) (hmo1 : 1 ≤ mo) (hmo2 : mo ≤ 12)
    (hy1 : 1 ≤ y) (hy2 : y ≤ 9999) (hdm : dd ≤ daysInMonth y mo)
    (hh : h ≤ 23) (hmi : mi ≤ 59) (hs : s ≤ 59) (hsep : sep.isDigit = false) :
    pf true sep true (pad2 dd ++ sep :: (pad2 mo ++ sep :: (pad4 y ++ ' ' ::
      (pad2 h ++ ':' :: (pad2 mi ++ ':' :: pad2 s))))) =
      some ⟨y, mo, dd, h, mi, s⟩ := by
  simp only [pf, parseDatePart]
  rw [parseDMY_sep hdd1 hdd2 hmo1 hmo2 hy2 hsep (by decide)]
  dsimp only
  rw [wsPlus_space_pad2 (show h ≤ 99 by omega)]
  dsimp only
  rw [parseTimePart_full hh hmi hs]
  dsimp only
  rw [if_pos (show ([] : List Char) = [] from rfl)]
  unfold validDT
  rw [if_pos ⟨hy1, hdm⟩]

lemma pf_ymdT_success {sep : Char} {dd mo y h mi s : Nat}
    (hdd1 : 1 ≤ dd) (hdd2 : dd ≤ 31) (hmo1 : 1 ≤ mo) (hmo2 : mo ≤ 12)
    (hy1 : 1 ≤ y) (hy2 : y ≤ 9999) (hdm : dd ≤ daysInMonth y mo)
    (hh : h ≤ 23) (hmi : mi ≤ 59) (hs : s ≤ 59) (hsep : sep.isDigit = false) :
    pf false sep true (pad4 y ++ sep :: (pad2 mo ++ sep :: (pad2 dd ++ ' ' ::
      (pad2 h ++ ':' :: (pad2 mi ++ ':' :: pad2 s))))) =
      some ⟨y, mo, dd, h, mi, s⟩ := by
  simp only [pf, parseDatePart]
  rw [parseYMD_sep hdd1 hdd2 hmo1 hmo2 hy2 hsep (by decide)]
  dsimp only
  rw [wsPlus_space_pad2 (show h ≤ 99 by omega)]
  dsimp only
  rw [parseTimePart_full hh hmi hs]
  dsimp only
  rw [if_pos (show ([] : List Char) = [] from rfl)]
  unfold validDT
  rw [if_pos ⟨hy1, hdm⟩]

lemma pf_dmyF_success {sep : Char} {dd mo y : Nat}
    (hdd1 : 1 ≤ dd) (hdd2 : dd ≤ 31) (hmo1 : 1 ≤ mo) (hmo2 : mo ≤ 12)
    (hy1 : 1 ≤ y) (hy2 : y ≤ 9999) (hdm : dd ≤ daysInMonth y mo)
    (hsep : sep.isDigit = false) :
    pf true sep false (pad2 dd ++ sep :: (pad2 mo ++ sep :: pad4 y)) =
      some ⟨y, mo, dd, 0, 0, 0⟩ := by
  simp only [pf, parseDatePart]
  rw [parseDMY_end hdd1 hdd2 hmo1 hmo2 hy2 hsep]
  dsimp only
  rw [if_pos (show ([] : List Char) = [] from rfl)]
  unfold validDT
  rw [if_pos ⟨hy1, hdm⟩]

lemma pf_ymdF_success {sep : Char} {dd mo y : Nat}
    (hdd1 : 1 ≤ dd) (hdd2 : dd ≤ 31) (hmo1 : 1 ≤ mo) (hmo2 : mo ≤ 12)
    (hy1 : 1 ≤ y) (hy2 : y ≤ 9999) (hdm : dd ≤ daysInMonth y mo)
    (hsep : sep.isDigit = false) :
    pf false sep false (pad4 y ++ sep :: (pad2 mo ++ sep :: pad2 dd)) =
      some ⟨y, mo, dd, 0, 0, 0⟩ := by
  simp only [pf, parseDatePart]
  rw [parseYMD_end hdd1 hdd2 hmo1 hmo2 hy2 hsep]
  dsimp only
  rw [if_pos (show ([] : List Char) = [] from rfl)]
  unfold validDT
  rw [if_pos ⟨hy1, hdm⟩]

lemma roundtrip_R0 {d : PDateTime} (hv : ValidDT d) :
    parse_datetime (renderDT false '-' true d) = some d := by
  obtain ⟨hy1, hy2, hm1, hm2, hd1, hd2, hh, hmi, hs⟩ := hv
  have hnorm : renderDT false '-' true d =
      pad4 d.year ++ '-' :: (pad2 d.month ++ '-' :: (pad2 d.day ++ ' ' ::
        (pad2 d.hour ++ ':' :: (pad2 d.minute ++ ':' :: pad2 d.second)))) := by
    simp [renderDT, List.append_assoc]
  have hstrip : stripList (pad4 d.year ++ '-' :: (pad2 d.month ++ '-' ::
      (pad2 d.day ++ ' ' :: (pad2 d.hour ++ ':' ::
        (pad2 d.minute ++ ':' :: pad2 d.second))))) =
      pad4 d.year ++ '-' :: (pad2 d.month ++ '-' :: (pad2 d.day ++ ' ' ::
        (pad2 d.hour ++ ':' :: (pad2 d.minute ++ ':' :: pad2 d.second)))) := by
    apply stripList_eq_of_drops
    · exact dropWhile_cons_of_neg (digitChar_not_ws (show d.year / 1000 < 10 by omega))
    · exact dropWhile_cons_of_neg (digitChar_not_ws (show d.second % 10 < 10 by omega))
  rw [hnorm]
  unfold parse_datetime
  rw [hstrip]
  simp only [formatFns, fmtSpecs, List.map_cons, List.map_nil]
  rw [tryFormats_cons_some
      (pf_ymdT_success hd1 (le_trans hd2 (daysInMonth_le_31 _ _)) hm1 hm2 hy1 hy2 hd2
        hh hmi hs (by decide))]

lemma roundtrip_R1 {d : PDateTime} (hv : ValidDT d) :
    parse_datetime (renderDT true '.' true d) = some d := by
  obtain ⟨hy1, hy2, hm1, hm2, hd1, hd2, hh, hmi, hs⟩ := hv
  have hd31 : d.day ≤ 31 := le_trans hd2 (daysInMonth_le_31 _ _)
  have hnorm : renderDT true '.' true d =
      pad2 d.day ++ '.' :: (pad2 d.month ++ '.' :: (pad4 d.year ++ ' ' ::
        (pad2 d.hour ++ ':' :: (pad2 d.minute ++ ':' :: pad2 d.second)))) := by
    simp [renderDT, List.append_assoc]
  have hstrip : stripList (pad2 d.day ++ '.' :: (pad2 d.month ++ '.' ::
      (pad4 d.year ++ ' ' :: (pad2 d.hour ++ ':' ::
        (pad2 d.minute ++ ':' :: pad2 d.second))))) =
      pad2 d.day ++ '.' :: (pad2 d.month ++ '.' :: (pad4 d.year ++ ' ' ::
        (pad2 d.hour ++ ':' :: (pad2 d.minute ++ ':' :: pad2 d.second)))) := by
    apply stripList_eq_of_drops
    · exact dropWhile_cons_of_neg (digitChar_not_ws (show d.day / 10 < 10 by omega))
    · exact dropWhile_cons_of_neg (digitChar_not_ws (show d.second % 10 < 10 by omega))
  rw [hnorm]
  unfold parse_datetime
  rw [hstrip]
  simp only [formatFns, fmtSpecs, List.map_cons, List.map_nil]
  rw [tryFormats_cons_none (pf_false_on_pad2 (show d.day ≤ 99 by omega) (by decide)),
      tryFormats_cons_some
        (pf_dmyT_success hd1 hd31 hm1 hm2 hy1 hy2 hd2 hh hmi hs (by decide))]

lemma roundtrip_R2 {d : PDateTime} (hv : ValidDT d) :
    parse_datetime (renderDT true '-' true d) = some d := by
  obtain ⟨hy1, hy2, hm1, hm2, hd1, hd2, hh, hmi, hs⟩ := hv
  have hd31 : d.day ≤ 31 := le_trans hd2 (daysInMonth_le_31 _ _)
  have hd99 : d.day ≤ 99 := by omega
  have hnorm : renderDT true '-' true d =
      pad2 d.day ++ '-' :: (pad2 d.month ++ '-' :: (pad4 d.year ++ ' ' ::
        (pad2 d.hour ++ ':' :: (pad2 d.minute ++ ':' :: pad2 d.second)))) := by
    simp [renderDT, List.append_assoc]
  have hstrip : stripList (pad2 d.day ++ '-' :: (pad2 d.month ++ '-' ::
      (pad4 d.year ++ ' ' :: (pad2 d.hour ++ ':' ::
        (pad2 d.minute ++ ':' :: pad2 d.second))))) =
      pad2 d.day ++ '-' :: (pad2 d.month ++ '-' :: (pad4 d.year ++ ' ' ::
        (pad2 d.hour ++ ':' :: (pad2 d.minute ++ ':' :: pad2 d.second)))) := by
    apply stripList_eq_of_drops
    · exact dropWhile_cons_of_neg (digitChar_not_ws (show d.day / 10 < 10 by omega))
    · exact dropWhile_cons_of_neg (digitChar_not_ws (show d.second % 10 < 10 by omega))
  rw [hnorm]
  unfold parse_datetime
  rw [hstrip]
  simp only [formatFns, fmtSpecs, List.map_cons, List.map_nil]
  rw [tryFormats_cons_none (pf_false_on_pad2 hd99 (by decide)),
      tryFormats_cons_none (pf_true_sep_mismatch hd1 hd31 (by decide) (by decide)),
      tryFormats_cons_some
        (pf_dmyT_success hd1 hd31 hm1 hm2 hy1 hy2 hd2 hh hmi hs (by decide))]

lemma roundtrip_R3 {d : PDateTime} (hv : ValidDT d)
    (h0 : d.hour = 0 ∧ d.minute = 0 ∧ d.second = 0) :
    parse_datetime (renderDT false '-' false d) = some d := by
  obtain ⟨hy1, hy2, hm1, hm2, hd1, hd2, hh, hmi, hs⟩ := hv
  obtain ⟨e1, e2, e3⟩ := h0
  have hd31 : d.day ≤ 31 := le_trans hd2 (daysInMonth_le_31 _ _)
  have hdeq : (⟨d.year, d.month, d.day, 0, 0, 0⟩ : PDateTime) = d := by
    cases d
    dsimp only at e1 e2 e3
    rw [e1, e2, e3]
  have hnorm : renderDT false '-' false d =
      pad4 d.year ++ '-' :: (pad2 d.month ++ '-' :: pad2 d.day) := by
    simp [renderDT, List.append_assoc]
  have hstrip : stripList (pad4 d.year ++ '-' :: (pad2 d.month ++ '-' :: pad2 d.day)) =
      pad4 d.year ++ '-' :: (pad2 d.month ++ '-' :: pad2 d.day) := by
    apply stripList_eq_of_drops
    · exact dropWhile_cons_of_neg (digitChar_not_ws (show d.year / 1000 < 10 by omega))
    · exact dropWhile_cons_of_neg (digitChar_not_ws (show d.day % 10 < 10 by omega))
  rw [hnorm]
  unfold parse_datetime
  rw [hstrip]
  simp only [formatFns, fmtSpecs, List.map_cons, List.map_nil]
  rw [tryFormats_cons_none (pf_ymdT_dateonly_none hd1 hd31 hm1 hm2 hy2 (by decide)),
      tryFormats_cons_none (pf_true_on_pad4 hy2 (by decide)),
      tryFormats_cons_none (pf_true_on_pad4 hy2 (by decide)),
      tryFormats_cons_some (pf_ymdF_success hd1 hd31 hm1 hm2 hy1 hy2 hd2 (by decide)),
      hdeq]

lemma roundtrip_R4 {d : PDateTime} (hv : ValidDT d)
    (h0 : d.hour = 0 ∧ d.minute = 0 ∧ d.second = 0) :
    parse_datetime (renderDT true '.' false d) = some d := by
  obtain ⟨hy1, hy2, hm1, hm2, hd1, hd2, hh, hmi, hs⟩ := hv
  obtain ⟨e1, e2, e3⟩ := h0
  have hd31 : d.day ≤ 31 := le_trans hd2 (daysInMonth_le_31 _ _)
  have hd99 : d.day ≤ 99 := by omega
  have hdeq : (⟨d.year, d.month, d.day, 0, 0, 0⟩ : PDateTime) = d := by
    cases d
    dsimp only at e1 e2 e3
    rw [e1, e2, e3]
  have hnorm : renderDT true '.' false d =
      pad2 d.day ++ '.' :: (pad2 d.month ++ '.' :: pad4 d.year) := by
    simp [renderDT, List.append_assoc]
  have hstrip : stripList (pad2 d.day ++ '.' :: (pad2 d.month ++ '.' :: pad4 d.year)) =
      pad2 d.day ++ '.' :: (pad2 d.month ++ '.' :: pad4 d.year) := by
    apply stripList_eq_of_drops
    · exact dropWhile_cons_of_neg (digitChar_not_ws (show d.day / 10 < 10 by omega))
    · exact dropWhile_cons_of_neg (digitChar_not_ws (show d.year % 10 < 10 by omega))
  rw [hnorm]
  unfold parse_datetime
  rw [hstrip]
  simp only [formatFns, fmtSpecs, List.map_cons, List.map_nil]
  rw [tryFormats_cons_none (pf_false_on_pad2 hd99 (by decide)),
      tryFormats_cons_none (pf_dmyT_dateonly_none hd1 hd31 hm1 hm2 hy2 (by decide)),
      tryFormats_cons_none (pf_true_sep_mismatch hd1 hd31 (by decide) (by decide)),
      tryFormats_cons_none (pf_false_on_pad2 hd99 (by decide)),
      tryFormats_cons_some (pf_dmyF_success hd1 hd31 hm1 hm2 hy1 hy2 hd2 (by decide)),
      hdeq]

lemma roundtrip_R5 {d : PDateTime} (hv : ValidDT d)
    (h0 : d.hour = 0 ∧ d.minute = 0 ∧ d.second = 0) :
    parse_datetime (renderDT true '-' false d) = some d := by
  obtain ⟨hy1, hy2, hm1, hm2, hd1, hd2, hh, hmi, hs⟩ := hv
  obtain ⟨e1, e2, e3⟩ := h0
  have hd31 : d.day ≤ 31 := le_trans hd2 (daysInMonth_le_31 _ _)
  have hd99 : d.day ≤ 99 := by omega
  have hdeq : (⟨d.year, d.month, d.day, 0, 0, 0⟩ : PDateTime) = d := by
    cases d
    dsimp only at e1 e2 e3
    rw [e1, e2, e3]
  have hnorm : renderDT true '-' false d =
      pad2 d.day ++ '-' :: (pad2 d.month ++ '-' :: pad4 d.year) := by
    simp [renderDT, List.append_assoc]
  have hstrip : stripList (pad2 d.day ++ '-' :: (pad2 d.month ++ '-' :: pad4 d.year)) =
      pad2 d.day ++ '-' :: (pad2 d.month ++ '-' :: pad4 d.year) := by
    apply stripList_eq_of_drops
    · exact dropWhile_cons_of_neg (digitChar_not_ws (show d.day / 10 < 10 by omega))
    · exact dropWhile_cons_of_neg (digitChar_not_ws (show d.year % 10 < 10 by omega))
  rw [hnorm]
  unfold parse_datetime
  rw [hstrip]
  simp only [formatFns, fmtSpecs, List.map_cons, List.map_nil]
  rw [tryFormats_cons_none (pf_false_on_pad2 hd99 (by decide)),
      tryFormats_cons_none (pf_true_sep_mismatch hd1 hd31 (by decide) (by decide)),
      tryFormats_cons_none (pf_dmyT_dateonly_none hd1 hd31 hm1 hm2 hy2 (by decide)),
      tryFormats_cons_none (pf_false_on_pad2 hd99 (by decide)),
      tryFormats_cons_none (pf_true_sep_mismatch hd1 hd31 (by decide) (by decide)),
      tryFormats_cons_some (pf_dmyF_success hd1 hd31 hm1 hm2 hy1 hy2 hd2 (by decide)),
      hdeq]

lemma roundtrip_R6 {d : PDateTime} (hv : ValidDT d) :
    parse_datetime (renderDT true '/' true d) = some d := by
  obtain ⟨hy1, hy2, hm1, hm2, hd1, hd2, hh, hmi, hs⟩ := hv
  have hd31 : d.day ≤ 31 := le_trans hd2 (daysInMonth_le_31 _ _)
  have hd99 : d.day ≤ 99 := by omega
  have hnorm : renderDT true '/' true d =
      pad2 d.day ++ '/' :: (pad2 d.month ++ '/' :: (pad4 d.year ++ ' ' ::
        (pad2 d.hour ++ ':' :: (pad2 d.minute ++ ':' :: pad2 d.second)))) := by
    simp [renderDT, List.append_assoc]
  have hstrip : stripList (pad2 d.day ++ '/' :: (pad2 d.month ++ '/' ::
      (pad4 d.year ++ ' ' :: (pad2 d.hour ++ ':' ::
        (pad2 d.minute ++ ':' :: pad2 d.second))))) =
      pad2 d.day ++ '/' :: (pad2 d.month ++ '/' :: (pad4 d.year ++ ' ' ::
        (pad2 d.hour ++ ':' :: (pad2 d.minute ++ ':' :: pad2 d.second)))) := by
    apply stripList_eq_of_drops
    · exact dropWhile_cons_of_neg (digitChar_not_ws (show d.day / 10 < 10 by omega))
    · exact dropWhile_cons_of_neg (digitChar_not_ws (show d.second % 10 < 10 by omega))
  rw [hnorm]
  unfold parse_datetime
  rw [hstrip]
  simp only [formatFns, fmtSpecs, List.map_cons, List.map_nil]
  rw [tryFormats_cons_none (pf_false_on_pad2 hd99 (by decide)),
      tryFormats_cons_none (pf_true_sep_mismatch hd1 hd31 (by decide) (by decide)),
      tryFormats_cons_none (pf_true_sep_mismatch hd1 hd31 (by decide) (by decide)),
      tryFormats_cons_none (pf_false_on_pad2 hd99 (by decide)),
      tryFormats_cons_none (pf_true_sep_mismatch hd1 hd31 (by decide) (by decide)),
      tryFormats_cons_none (pf_true_sep_mismatch hd1 hd31 (by decide) (by decide)),
      tryFormats_cons_some
        (pf_dmyT_success hd1 hd31 hm1 hm2 hy1 hy2 hd2 hh hmi hs (by decide))]

lemma roundtrip_R7 {d : PDateTime} (hv : ValidDT d)
    (h0 : d.hour = 0 ∧ d.minute = 0 ∧ d.second = 0) :
    parse_datetime (renderDT true '/' false d) = some d := by
  obtain ⟨hy1, hy2, hm1, hm2, hd1, hd2, hh, hmi, hs⟩ := hv
  obtain ⟨e1, e2, e3⟩ := h0
  have hd31 : d.day ≤ 31 := le_trans hd2 (daysInMonth_le_31 _ _)
  have hd99 : d.day ≤ 99 := by omega
  have hdeq : (⟨d.year, d.month, d.day, 0, 0, 0⟩ : PDateTime) = d := by
    cases d
    dsimp only at e1 e2 e3
    rw [e1, e2, e3]
  have hnorm : renderDT true '/' false d =
      pad2 d.day ++ '/' :: (pad2 d.month ++ '/' :: pad4 d.year) := by
    simp [renderDT, List.append_assoc]
  have hstrip : stripList (pad2 d.day ++ '/' :: (pad2 d.month ++ '/' :: pad4 d.year)) =
      pad2 d.day ++ '/' :: (pad2 d.month ++ '/' :: pad4 d.year) := by
    apply stripList_eq_of_drops
    · exact dropWhile_cons_of_neg (digitChar_not_ws (show d.day / 10 < 10 by omega))
    · exact dropWhile_cons_of_neg (digitChar_not_ws (show d.year % 10 < 10 by omega))
  rw [hnorm]
  unfold parse_datetime
  rw [hstrip]
  simp only [formatFns, fmtSpecs, List.map_cons, List.map_nil]
  rw [tryFormats_cons_none (pf_false_on_pad2 hd99 (by decide)),
      tryFormats_cons_none (pf_true_sep_mismatch hd1 hd31 (by decide) (by decide)),
      tryFormats_cons_none (pf_true_sep_mismatch hd1 hd31 (by decide) (by decide)),
      tryFormats_cons_none (pf_false_on_pad2 hd99 (by decide)),
      tryFormats_cons_none (pf_true_sep_mismatch hd1 hd31 (by decide) (by decide)),
      tryFormats_cons_none (pf_true_sep_mismatch hd1 hd31 (by decide) (by decide)),
      tryFormats_cons_none (pf_dmyT_dateonly_none hd1 hd31 hm1 hm2 hy2 (by decide)),
      tryFormats_cons_some (pf_dmyF_success hd1 hd31 hm1 hm2 hy1 hy2 hd2 (by decide)),
      hdeq]

/-- Witness for C1 amended: the concrete scenario environment. -/
theorem C1_amended_crawl_totals_witness :
    runParser env10 1 10 = ⟨8, 8, 2⟩ ∧ run_summary env10 1 10 5 ≠ none := by
  refine C1_amended_crawl_totals env10 5 rfl rfl ?_
  intro p hp
  fin_cases hp <;>
    exact ⟨c9text, rfl, by rw [show env10.fragments _ = [] from rfl, extract_c9]; rfl, rfl,
           fun r => rfl⟩

/-- Claim C7: format invariance of parse_datetime.  For every valid datetime
    and every supported format that can express it (a date-only format
    requires the time to be midnight), parsing the rendering of that
    instant in the format returns exactly that instant, whichever format
    was used; and a string matched by none of the formats parses to
    "absent" (None) rather than raising. -/
theorem C7_parse_datetime_format_invariance :
    (∀ (d : PDateTime) (s : Bool × Char × Bool), s ∈ fmtSpecs → ValidDT d →
        (s.2.2 = false → d.hour = 0 ∧ d.minute = 0 ∧ d.second = 0) →
        parse_datetime (renderDT s.1 s.2.1 s.2.2 d) = some d) ∧
    (∀ l : List Char, (∀ f ∈ formatFns, f (stripList l) = none) →
        parse_datetime l = none) := by
  constructor
  · intro d s hs hv htime
    fin_cases hs
    · exact roundtrip_R0 hv
    · exact roundtrip_R1 hv
    · exact roundtrip_R2 hv
    · exact roundtrip_R3 hv (htime rfl)
    · exact roundtrip_R4 hv (htime rfl)
    · exact roundtrip_R5 hv (htime rfl)
    · exact roundtrip_R6 hv
    · exact roundtrip_R7 hv (htime rfl)
  · intro l hl
    exact tryFormats_all_none hl

/-- Witness for C7: the scenario instant in the ISO format, and a
    non-matching string. -/
theorem C7_parse_datetime_format_invariance_witness :
    parse_datetime (renderDT false '-' true ⟨2024, 3, 1, 10, 0, 0⟩) =
      some ⟨2024, 3, 1, 10, 0, 0⟩ ∧
    parse_datetime "not a date".data = none :=
  ⟨C7_parse_datetime_format_invariance.1 ⟨2024, 3, 1, 10, 0, 0⟩ (false, '-', true)
      (by decide) (by unfold ValidDT; decide) (by decide),
   C7_parse_datetime_format_invariance.2 "not a date".data (by decide)⟩

end LPP
